import Mathlib

/-!
Shallow embedding of `src/serve/tileserver/REST_mosaic.py` (the mosaic
compositing engine of the tileserver) and verification of its specification.

Conventions of the embedding:
* Python/numpy floats are modelled as `ℚ` (all arithmetic the claims touch is
  exact decimal arithmetic on coordinates and mask counts).
* numpy arrays indexed `[y, x]` are modelled as functions on positions
  `Pos = (row, column)`.
* The remote pixel-fetch service (`session.post` inside `_get_GEE_arr`) is an
  oracle parameter `fetch : FetchCall → Except String (Pos → ℚ)`; a raised
  Python exception is the `Except.error` case carrying its message.
* The per-band dimension of arrays is kept abstract (a single `ℚ` stands for
  the per-pixel band vector); the band COUNT is threaded separately where the
  code uses `len(self.BANDS)`.
-/

/-- Pixel position `(y, x)` in numpy row-major order: `.1` is the row,
`.2` is the column. -/
abbrev Pos := Nat × Nat

/-- Shapely `.bounds` tuple `(minx, miny, maxx, maxy)`; `bounds[0] = minx`,
`bounds[1] = miny`, `bounds[2] = maxx`, `bounds[3] = maxy`. -/
structure Bounds where
  minx : ℚ
  miny : ℚ
  maxx : ℚ
  maxy : ℚ

/-- Python `int(q)`: truncation toward zero. -/
def pyInt (q : ℚ) : ℤ := if 0 ≤ q then ⌊q⌋ else ⌈q⌉

/-- The default zone formula of `get_utm_zone`:
`zone_str = str(int((lon + 180)/6) + 1)` (line 29). -/
def utm_zone_default (lon : ℚ) : ℤ := pyInt ((lon + 180) / 6) + 1

/-- Embedding of `get_utm_zone(lat, lon)` (REST_mosaic.py lines 26-43).
The code computes `zone_str = str(int((lon + 180)/6) + 1)` and then overrides
it inside the Norway (56-64N, 3-12E) and Svalbard (72-84N) exception bands.
The Python function returns the zone as a string; we return the integer it
prints. -/
def get_utm_zone (lat lon : ℚ) : ℤ :=
  if 56 ≤ lat ∧ lat < 64 ∧ 3 ≤ lon ∧ lon < 12 then 32
  else if 72 ≤ lat ∧ lat < 84 then
    if 0 ≤ lon ∧ lon < 9 then 31
    else if 9 ≤ lon ∧ lon < 21 then 33
    else if 21 ≤ lon ∧ lon < 33 then 35
    else if 33 ≤ lon ∧ lon < 42 then 37
    else utm_zone_default lon
  else utm_zone_default lon

/-- The Norway/Svalbard exception bands of `get_utm_zone`: the region where
one of the explicit overrides fires. -/
def inExceptionBands (lat lon : ℚ) : Prop :=
  (56 ≤ lat ∧ lat < 64 ∧ 3 ≤ lon ∧ lon < 12) ∨
  (72 ≤ lat ∧ lat < 84 ∧ 0 ≤ lon ∧ lon < 42)

instance (lat lon : ℚ) : Decidable (inExceptionBands lat lon) := by
  unfold inExceptionBands; infer_instance

/-- numpy `np.clip(x, lo, hi)` on integers: `min(max(x, lo), hi)`. -/
def npclip (x lo hi : ℤ) : ℤ := min (max x lo) hi

/-- Embedding of `RESTMosaic._make_alpha_mask` (lines 276-288), pointwise.
Layer 0 is the raw availability mask of scene 0; layer `i > 0` is
`(mask_i - mask_arr[..., :i].sum(axis=-1)).clip(0, 1)`. -/
def alphaLayer (mask : Nat → Pos → ℤ) (i : Nat) (p : Pos) : ℤ :=
  if i = 0 then mask 0 p
  else npclip (mask i p - ∑ j ∈ Finset.range i, mask j p) 0 1

/-- A mask is binary when every pixel value is 0 or 1 (the availability masks
rasterized by `_mask_by_id` are binary: `draw.polygon(..., fill=1)` over a
zero canvas). -/
def BinaryMask (m : Pos → ℤ) : Prop := ∀ p, m p = 0 ∨ m p = 1

lemma npclip01 (x : ℤ) : npclip x 0 1 = 0 ∨ npclip x 0 1 = 1 := by
  have h1 : 0 ≤ npclip x 0 1 := le_min (le_max_right x 0) (by norm_num)
  have h2 : npclip x 0 1 ≤ 1 := min_le_right _ _
  omega

lemma npclip_one_iff (x : ℤ) : npclip x 0 1 = 1 ↔ 1 ≤ x := by
  unfold npclip
  rw [min_eq_right_iff, le_max_iff]
  omega

/-- With binary input masks, alpha layer `i` is 1 at a pixel exactly when
scene `i` covers the pixel and no earlier scene does. -/
lemma alphaLayer_eq_one_iff (mask : Nat → Pos → ℤ) (hbin : ∀ i, BinaryMask (mask i))
    (i : Nat) (p : Pos) :
    alphaLayer mask i p = 1 ↔ mask i p = 1 ∧ ∀ j < i, mask j p = 0 := by
  unfold alphaLayer
  rcases Nat.eq_zero_or_pos i with hi | hi
  · subst hi; simp
  · rw [if_neg (Nat.pos_iff_ne_zero.mp hi), npclip_one_iff]
    have hterm : ∀ j ∈ Finset.range i, 0 ≤ mask j p := by
      intro j _; rcases hbin j p with h | h <;> omega
    have hsum_nonneg : 0 ≤ ∑ j ∈ Finset.range i, mask j p := Finset.sum_nonneg hterm
    constructor
    · intro h
      have hle : mask i p ≤ 1 := by rcases hbin i p with h' | h' <;> omega
      have hsum0 : ∑ j ∈ Finset.range i, mask j p = 0 := by omega
      refine ⟨by omega, fun j hj => ?_⟩
      exact (Finset.sum_eq_zero_iff_of_nonneg hterm).mp hsum0 j (Finset.mem_range.mpr hj)
    · rintro ⟨h1, h2⟩
      have hz : ∑ j ∈ Finset.range i, mask j p = 0 :=
        Finset.sum_eq_zero fun j hj => h2 j (Finset.mem_range.mp hj)
      omega

/-- C1: for every ordered list of binary availability masks, the alpha
assignment (`layer 0 = mask 0`; `layer i = clip(mask_i − sum(mask_0..i−1), 0, 1)`
for `i > 0`, as computed by `RESTMosaic._make_alpha_mask`) yields layers that
are pairwise disjoint — no pixel is 1 in two layers — and whose union over
pixel positions equals the union of the input availability masks. -/
theorem alpha_partition_disjoint_union (mask : Nat → Pos → ℤ) (n : Nat)
    (hbin : ∀ i, BinaryMask (mask i)) (p : Pos) :
    (∀ i j, i < n → j < n → i ≠ j →
      ¬(alphaLayer mask i p = 1 ∧ alphaLayer mask j p = 1)) ∧
    ((∃ i, i < n ∧ alphaLayer mask i p = 1) ↔ (∃ i, i < n ∧ mask i p = 1)) := by
  have key := alphaLayer_eq_one_iff mask hbin
  constructor
  · rintro i j hi hj hne ⟨hai, haj⟩
    rcases Nat.lt_or_ge i j with h | h
    · have hj' := (key j p).mp haj
      have hi' := (key i p).mp hai
      have := hj'.2 i h
      omega
    · have hlt : j < i := lt_of_le_of_ne h (Ne.symm hne)
      have hj' := (key j p).mp haj
      have hi' := (key i p).mp hai
      have := hi'.2 j hlt
      omega
  · constructor
    · rintro ⟨i, hi, hai⟩
      exact ⟨i, hi, ((key i p).mp hai).1⟩
    · rintro ⟨i, hi, hmi⟩
      have hex : ∃ k, mask k p = 1 := ⟨i, hmi⟩
      refine ⟨Nat.find hex, lt_of_le_of_lt (Nat.find_min' hex hmi) hi, ?_⟩
      refine (key (Nat.find hex) p).mpr ⟨Nat.find_spec hex, fun j hj => ?_⟩
      have := Nat.find_min hex hj
      rcases hbin j p with h | h <;> omega

/-- Witness for C1 at the concrete all-ones mask pair. -/
theorem alpha_partition_disjoint_union_witness :
    (∀ i j, i < 2 → j < 2 → i ≠ j →
      ¬(alphaLayer (fun _ _ => 1) i (0, 0) = 1 ∧ alphaLayer (fun _ _ => 1) j (0, 0) = 1)) ∧
    ((∃ i, i < 2 ∧ alphaLayer (fun _ _ => 1) i (0, 0) = 1) ↔
      (∃ i, i < 2 ∧ (fun (_ : Nat) (_ : Pos) => (1 : ℤ)) i (0, 0) = 1)) :=
  alpha_partition_disjoint_union (fun _ _ => 1) 2 (fun _ _ => Or.inr rfl) (0, 0)

/-- C3: outside the Norway/Svalbard exception bands `get_utm_zone` returns
`floor((lon+180)/6)+1`; inside them it returns the override zone — 32 for
56≤lat<64 and 3≤lon<12, and for 72≤lat<84 zone 31/33/35/37 according to the
longitude band — in particular lat=60, lon=5 gives 32 and lat=75, lon=15
gives 33. (Hypothesis `-180 ≤ lon`: for a genuine longitude, Python's
truncating `int()` agrees with the floor.) -/
theorem get_utm_zone_correct (lat lon : ℚ) (hlon : -180 ≤ lon) :
    (¬ inExceptionBands lat lon → get_utm_zone lat lon = ⌊(lon + 180) / 6⌋ + 1) ∧
    ((56 ≤ lat ∧ lat < 64 ∧ 3 ≤ lon ∧ lon < 12) → get_utm_zone lat lon = 32) ∧
    (72 ≤ lat ∧ lat < 84 →
      ((0 ≤ lon ∧ lon < 9) → get_utm_zone lat lon = 31) ∧
      ((9 ≤ lon ∧ lon < 21) → get_utm_zone lat lon = 33) ∧
      ((21 ≤ lon ∧ lon < 33) → get_utm_zone lat lon = 35) ∧
      ((33 ≤ lon ∧ lon < 42) → get_utm_zone lat lon = 37)) ∧
    get_utm_zone 60 5 = 32 ∧ get_utm_zone 75 15 = 33 := by
  have hz : utm_zone_default lon = ⌊(lon + 180) / 6⌋ + 1 := by
    unfold utm_zone_default pyInt
    rw [if_pos (div_nonneg (by linarith) (by norm_num))]
  refine ⟨?_, ?_, ?_, by decide, by decide⟩
  · intro hout
    unfold get_utm_zone
    have hA : ¬(56 ≤ lat ∧ lat < 64 ∧ 3 ≤ lon ∧ lon < 12) := fun h => hout (Or.inl h)
    by_cases hB : 72 ≤ lat ∧ lat < 84
    · have h31 : ¬(0 ≤ lon ∧ lon < 9) := by
        rintro ⟨a, b⟩; exact hout (Or.inr ⟨hB.1, hB.2, a, by linarith⟩)
      have h33 : ¬(9 ≤ lon ∧ lon < 21) := by
        rintro ⟨a, b⟩; exact hout (Or.inr ⟨hB.1, hB.2, by linarith, by linarith⟩)
      have h35 : ¬(21 ≤ lon ∧ lon < 33) := by
        rintro ⟨a, b⟩; exact hout (Or.inr ⟨hB.1, hB.2, by linarith, by linarith⟩)
      have h37 : ¬(33 ≤ lon ∧ lon < 42) := by
        rintro ⟨a, b⟩; exact hout (Or.inr ⟨hB.1, hB.2, by linarith, by linarith⟩)
      rw [if_neg hA, if_pos hB, if_neg h31, if_neg h33, if_neg h35, if_neg h37, hz]
    · rw [if_neg hA, if_neg hB, hz]
  · intro hA
    unfold get_utm_zone
    rw [if_pos hA]
  · intro hB
    have hA : ¬(56 ≤ lat ∧ lat < 64 ∧ 3 ≤ lon ∧ lon < 12) := by
      rintro ⟨_, h2, _, _⟩; linarith [hB.1]
    refine ⟨?_, ?_, ?_, ?_⟩ <;> intro h <;> unfold get_utm_zone
    · rw [if_neg hA, if_pos hB, if_pos h]
    · have h31 : ¬(0 ≤ lon ∧ lon < 9) := by rintro ⟨_, b⟩; linarith [h.1]
      rw [if_neg hA, if_pos hB, if_neg h31, if_pos h]
    · have h31 : ¬(0 ≤ lon ∧ lon < 9) := by rintro ⟨_, b⟩; linarith [h.1]
      have h33 : ¬(9 ≤ lon ∧ lon < 21) := by rintro ⟨_, b⟩; linarith [h.1]
      rw [if_neg hA, if_pos hB, if_neg h31, if_neg h33, if_pos h]
    · have h31 : ¬(0 ≤ lon ∧ lon < 9) := by rintro ⟨_, b⟩; linarith [h.1]
      have h33 : ¬(9 ≤ lon ∧ lon < 21) := by rintro ⟨_, b⟩; linarith [h.1]
      have h35 : ¬(21 ≤ lon ∧ lon < 33) := by rintro ⟨_, b⟩; linarith [h.1]
      rw [if_neg hA, if_pos hB, if_neg h31, if_neg h33, if_neg h35, if_pos h]

/-- Witness for C3 at lat = 60, lon = 5. -/
theorem get_utm_zone_correct_witness :
    (¬ inExceptionBands 60 5 → get_utm_zone 60 5 = ⌊((5 : ℚ) + 180) / 6⌋ + 1) ∧
    ((56 ≤ (60 : ℚ) ∧ (60 : ℚ) < 64 ∧ 3 ≤ (5 : ℚ) ∧ (5 : ℚ) < 12) → get_utm_zone 60 5 = 32) ∧
    (72 ≤ (60 : ℚ) ∧ (60 : ℚ) < 84 →
      ((0 ≤ (5 : ℚ) ∧ (5 : ℚ) < 9) → get_utm_zone 60 5 = 31) ∧
      ((9 ≤ (5 : ℚ) ∧ (5 : ℚ) < 21) → get_utm_zone 60 5 = 33) ∧
      ((21 ≤ (5 : ℚ) ∧ (5 : ℚ) < 33) → get_utm_zone 60 5 = 35) ∧
      ((33 ≤ (5 : ℚ) ∧ (5 : ℚ) < 42) → get_utm_zone 60 5 = 37)) ∧
    get_utm_zone 60 5 = 32 ∧ get_utm_zone 75 15 = 33 :=
  get_utm_zone_correct 60 5 (by norm_num)

/-- A remote fetch request as issued by `_fill_single_id` / `_fill_mosaic`:
scene index and id, patch coordinate `(ii_x, ii_y)`, and the ground-space
offsets passed to `_get_GEE_arr`. -/
structure FetchCall where
  idx : Nat
  scene : String
  px : Nat
  py : Nat
  x_off : ℚ
  y_off : ℚ
  deriving DecidableEq

/-- Shapely 6-parameter affine matrix `[a, b, d, e, xoff, yoff]`:
`affine_transform` maps `(x, y) ↦ (a*x + b*y + xoff, d*x + e*y + yoff)`. -/
structure AffineGT where
  a : ℚ
  b : ℚ
  d : ℚ
  e : ℚ
  xoff : ℚ
  yoff : ℚ
  deriving DecidableEq

/-- Apply a shapely affine matrix to a coordinate pair. -/
def applyGT (g : AffineGT) (q : ℚ × ℚ) : ℚ × ℚ :=
  (g.a * q.1 + g.b * q.2 + g.xoff, g.d * q.1 + g.e * q.2 + g.yoff)

/-- Result of `RESTMosaic._get_proj_and_affine` (the parts the claims need):
the affine matrix `GT` and grid dimensions `Dx`, `Dy`. -/
structure ProjResult where
  GT : AffineGT
  Dx : ℤ
  Dy : ℤ
  deriving DecidableEq

/-- Embedding of `RESTMosaic._get_proj_and_affine` (lines 189-213): given the
UTM-projected AOI bounds, `Dx = int((maxx−minx)//scale)`,
`Dy = int((maxy−miny)//scale)`, and `GT = [1/10, 0, 0, 1/10, −minx/10,
−miny/10]` (the `1/10` and `/10` are hardcoded, independent of `scale`).
The function performs no degeneracy check and always returns. -/
def get_proj_and_affine (scale : ℚ) (bd : Bounds) : ProjResult :=
  { GT := { a := 1/10, b := 0, d := 0, e := 1/10,
            xoff := -bd.minx / 10, yoff := -bd.miny / 10 },
    Dx := ⌊(bd.maxx - bd.minx) / scale⌋,
    Dy := ⌊(bd.maxy - bd.miny) / scale⌋ }

/-- One pass of the slice-assignment loop in `_make_pixel_indexer`:
`px[:, idx*P:(idx+1)*P] = idx`. -/
def indexerStep (P : Nat) (acc : Nat → Nat) (idx : Nat) : Nat → Nat :=
  fun x => if idx * P ≤ x ∧ x < (idx + 1) * P then idx else acc x

/-- One axis of `RESTMosaic._make_pixel_indexer` (lines 215-226): start from a
zero array, then `for idx in range(D // P + 1)` assign `idx` over the slice
`[idx*P, (idx+1)*P)`. -/
def pixel_indexer (P D : Nat) : Nat → Nat :=
  (List.range (D / P + 1)).foldl (indexerStep P) (fun _ => 0)

/-- Grid of all pixel positions `(y, x)` with `y < Dy`, `x < Dx`. -/
def pixelGrid (Dy Dx : Nat) : Finset Pos := Finset.range Dy ×ˢ Finset.range Dx

/-- Fill fraction of a mask (line 243):
`mask_arr[..., ii].sum() / shape[0] / shape[1]`. -/
def fillFraction (Dy Dx : Nat) (m : Pos → ℤ) : ℚ :=
  (∑ p ∈ pixelGrid Dy Dx, (m p : ℚ)) / (Dy : ℚ) / (Dx : ℚ)

/-- Indices of `np.where(np.array(fills) > 0.95)[0]`. -/
def exceedIndices (fills : List ℚ) : List Nat :=
  (List.range fills.length).filter fun i => decide ((95 : ℚ) / 100 < fills.getD i 0)

/-- The branch decision of `RESTMosaic.mosaic` (lines 151-152): if any fill
fraction exceeds 0.95 the single-scene fast path is taken with the scene at
index `np.where(np.array(fills) > 0.95)[0].min()`; otherwise the multi-scene
alpha path runs. -/
def mosaicStrategy (fills : List ℚ) : Option Nat := (exceedIndices fills).min?

/-- The fetch-call sequence of `RESTMosaic._fill_single_id` (lines 247-273):
`for ii_x in range(Dx//P+1): for ii_y in range(Dy//P+1)` with offsets
`x_off = bounds[0] + ii_x*P*SCALE`, `y_off = bounds[3] − ii_y*P*SCALE`
(lines 255-256). -/
def fillSingleCalls (bd : Bounds) (scale : ℚ) (P Dx Dy : Nat) (k : Nat)
    (scene : String) : List FetchCall :=
  (List.range (Dx / P + 1)).flatMap fun ii_x =>
    (List.range (Dy / P + 1)).map fun ii_y =>
      { idx := k, scene := scene, px := ii_x, py := ii_y,
        x_off := bd.minx + (ii_x : ℚ) * (P : ℚ) * scale,
        y_off := bd.maxy - (ii_y : ℚ) * (P : ℚ) * scale }

/-- The pixel grid as a row-major list of positions `(y, x)` (the order in
which `px_x.tolist()` / `px_y.tolist()` flatten the indexer arrays). -/
def gridList (Dy Dx : Nat) : List Pos :=
  (List.range Dy).flatMap fun y => (List.range Dx).map fun x => (y, x)

/-- The `run_idx` entry for scene `i` (line 168):
`list(set(zip(px_x[alpha > 0], px_y[alpha > 0])))` — the deduplicated
patch coordinates `(px_x[p], px_y[p])` over grid pixels `p` with
`alpha_mask[..., i] > 0`. -/
def run_idx_scene (alpha : Nat → Pos → ℤ) (P Dx Dy i : Nat) : List (Nat × Nat) :=
  (((gridList Dy Dx).filter fun p => decide (0 < alpha i p)).map
    fun p => (pixel_indexer P Dx p.2, pixel_indexer P Dy p.1)).dedup

/-- Fetch calls of scene `i` in `RESTMosaic._fill_mosaic` (lines 291-318),
offsets per lines 298-299. -/
def fillMosaicScene (bd : Bounds) (scale : ℚ) (P Dx Dy : Nat)
    (alpha : Nat → Pos → ℤ) (i : Nat) (scene : String) : List FetchCall :=
  (run_idx_scene alpha P Dx Dy i).map fun q =>
    { idx := i, scene := scene, px := q.1, py := q.2,
      x_off := bd.minx + (q.1 : ℚ) * (P : ℚ) * scale,
      y_off := bd.maxy - (q.2 : ℚ) * (P : ℚ) * scale }

/-- All fetch calls of `_fill_mosaic`, scenes in `image_ids` order (for
distinct ids the `run_idx` dict preserves insertion order, and its
enumeration index `ii` is the scene's alpha-layer index). -/
def fillMosaicCalls (bd : Bounds) (scale : ℚ) (P Dx Dy : Nat)
    (alpha : Nat → Pos → ℤ) (ids : List String) : List FetchCall :=
  (List.range ids.length).flatMap fun i =>
    fillMosaicScene bd scale P Dx Dy alpha i (ids.getD i "")

/-- The mosaic buffer initialized to the nodata sentinel:
`np.ones((Dy, Dx, B)) * -1` (the band dimension is abstracted). -/
def initBuffer : Pos → ℚ := fun _ => -1

/-- Patch write of `_fill_single_id` (line 271): the fetched array is written
over the whole patch rectangle, clipped to the grid extent. -/
def writeSingle (P Dx Dy : Nat) (c : FetchCall) (arr : Pos → ℚ)
    (buf : Pos → ℚ) : Pos → ℚ :=
  fun p =>
    if p.1 < Dy ∧ p.2 < Dx ∧ c.py * P ≤ p.1 ∧ p.1 < (c.py + 1) * P ∧
       c.px * P ≤ p.2 ∧ p.2 < (c.px + 1) * P
    then arr (p.1 - c.py * P, p.2 - c.px * P) else buf p

/-- Patch write of `_fill_mosaic` (lines 314-316): like `writeSingle` but only
at pixels whose alpha layer for this scene is positive (`im_mask`). -/
def writeMosaic (P Dx Dy : Nat) (alpha : Nat → Pos → ℤ) (c : FetchCall)
    (arr : Pos → ℚ) (buf : Pos → ℚ) : Pos → ℚ :=
  fun p =>
    if p.1 < Dy ∧ p.2 < Dx ∧ c.py * P ≤ p.1 ∧ p.1 < (c.py + 1) * P ∧
       c.px * P ≤ p.2 ∧ p.2 < (c.px + 1) * P ∧ 0 < alpha c.idx p
    then arr (p.1 - c.py * P, p.2 - c.px * P) else buf p

/-- Run a list of fetch calls in order. Each call invokes the remote fetch
oracle exactly once — `_get_GEE_arr` (lines 63-85) performs a single
`session.post` with no retry and no exception handler — so an error aborts
immediately and propagates unchanged. Returns the attempted calls in order
together with the final buffer or the error. -/
def runCalls (fetch : FetchCall → Except String (Pos → ℚ))
    (write : FetchCall → (Pos → ℚ) → (Pos → ℚ) → Pos → ℚ) :
    List FetchCall → (Pos → ℚ) → List FetchCall × Except String (Pos → ℚ)
  | [], buf => ([], .ok buf)
  | c :: rest, buf =>
      match fetch c with
      | .error e => ([c], .error e)
      | .ok arr =>
          let r := runCalls fetch write rest (write c arr buf)
          (c :: r.1, r.2)

/-- The metadata `_write_rio` (lines 320-333) passes to `rasterio.open`. -/
structure RioOut where
  width : Nat
  height : Nat
  count : Nat
  transform_west : ℚ
  transform_north : ℚ
  deriving DecidableEq

/-- Embedding of `RESTMosaic._write_rio` (lines 320-333): the raster is opened
with `width = im_arr.shape[0]` and `height = im_arr.shape[1]` where the buffer
shape is `(Dy, Dx, len(BANDS))`, `count = len(BANDS)`, and transform origin
`from_origin(west = bounds[0], north = bounds[3], ...)`. -/
def write_rio (shape0 shape1 nBands : Nat) (bd : Bounds) : RioOut :=
  { width := shape0, height := shape1, count := nBands,
    transform_west := bd.minx, transform_north := bd.maxy }

/-- A finished mosaic build: grid dimensions, composited buffer, artifact. -/
structure MosaicOut where
  Dy : Nat
  Dx : Nat
  buffer : Pos → ℚ
  artifact : RioOut

/-- Observable outcome of one `RESTMosaic.mosaic` run: the branch taken, the
fetch calls attempted in order, and the result (output or propagated error). -/
structure RunResult where
  strategy : Option Nat
  attempts : List FetchCall
  result : Except String MosaicOut

/-- Core of `RESTMosaic.mosaic` after the projection step (lines 140-186):
compute fill fractions, choose fast path vs multi-scene alpha partition,
issue the fetch calls, and on success hand the buffer to `_write_rio` with
the metadata of `write_rio`. `mask i` is scene `i`'s availability mask as
rasterized by `_mask_by_id`. Note there is no emptiness check on `ids`
anywhere on this path. The `result` here is the COMPOSITING outcome with the
declared artifact metadata; whether the external writers then accept the
buffer (they reject zero-sized rasters) is modelled separately by
`finishBuild`, which `mosaicRunFinal` composes on top. -/
def mosaicCore (fetch : FetchCall → Except String (Pos → ℚ)) (ids : List String)
    (mask : Nat → Pos → ℤ) (Dx Dy : Nat) (scale : ℚ) (P nBands : Nat)
    (bd : Bounds) : RunResult :=
  let fills := (List.range ids.length).map fun i => fillFraction Dy Dx (mask i)
  match mosaicStrategy fills with
  | some k =>
      let r := runCalls fetch (writeSingle P Dx Dy)
        (fillSingleCalls bd scale P Dx Dy k (ids.getD k "")) initBuffer
      { strategy := some k, attempts := r.1,
        result := r.2.map fun buf =>
          { Dy := Dy, Dx := Dx, buffer := buf,
            artifact := write_rio Dy Dx nBands bd } }
  | none =>
      let r := runCalls fetch (writeMosaic P Dx Dy (alphaLayer mask))
        (fillMosaicCalls bd scale P Dx Dy (alphaLayer mask) ids) initBuffer
      { strategy := none, attempts := r.1,
        result := r.2.map fun buf =>
          { Dy := Dy, Dx := Dx, buffer := buf,
            artifact := write_rio Dy Dx nBands bd } }

/-- Embedding of `RESTMosaic.mosaic` end to end: the projection resolver computes `Dx`,
`Dy` from the AOI bounds (without any degeneracy check), then the core runs. -/
def mosaicRun (fetch : FetchCall → Except String (Pos → ℚ)) (ids : List String)
    (mask : Nat → Pos → ℤ) (scale : ℚ) (P nBands : Nat) (bd : Bounds) : RunResult :=
  mosaicCore fetch ids mask (get_proj_and_affine scale bd).Dx.toNat
    (get_proj_and_affine scale bd).Dy.toNat scale P nBands bd

/-- Modelled from the spec: the raster-sink contract of §4.6 — the writer
"fails fatally if the buffer is empty or dimensions are non-positive". The
output tail of `mosaic` (lines 177-182) hands the `(Dy, Dx, B)` buffer to
external writers (`fig.savefig` via matplotlib and `rasterio.open` via
GDAL, which refuses rasters whose sizes are not larger than zero); that
library-side rejection is not code under `src/`, so it is modelled here: a
compositing error propagates unchanged, and a zero-sized grid turns an
otherwise successful build into a fatal write failure with no artifact. -/
def finishBuild (Dy Dx : Nat) (r : Except String MosaicOut) : Except String MosaicOut :=
  match r with
  | .error e => .error e
  | .ok out =>
      if 0 < Dy ∧ 0 < Dx then .ok out
      else .error "zero-sized raster rejected by writer"

/-- Final outcome of one `RESTMosaic.mosaic` build: the compositing run of
`mosaicRun` followed by the writer step `finishBuild` on the grid the
projection resolver produced. -/
def mosaicRunFinal (fetch : FetchCall → Except String (Pos → ℚ)) (ids : List String)
    (mask : Nat → Pos → ℤ) (scale : ℚ) (P nBands : Nat) (bd : Bounds) : RunResult :=
  { strategy := (mosaicRun fetch ids mask scale P nBands bd).strategy,
    attempts := (mosaicRun fetch ids mask scale P nBands bd).attempts,
    result := finishBuild (get_proj_and_affine scale bd).Dy.toNat
      (get_proj_and_affine scale bd).Dx.toNat
      (mosaicRun fetch ids mask scale P nBands bd).result }

/-- C5 counterexample: the claim says the transform has NEGATIVE y-scale
(north-up). On the code, `_get_proj_and_affine` builds `a = e = 1/10`: the
y-scale entry `e` is positive, at this concrete AOI as everywhere. -/
theorem proj_affine_claim_refuted :
    (get_proj_and_affine 10 ⟨40, 50, 100, 200⟩).GT.e = 1 / 10 ∧
    ¬((get_proj_and_affine 10 ⟨40, 50, 100, 200⟩).GT.e < 0) ∧
    applyGT (get_proj_and_affine 10 ⟨40, 50, 100, 200⟩).GT (40, 50) = (0, 0) := by
  refine ⟨rfl, by norm_num [get_proj_and_affine], ?_⟩
  show ((1 : ℚ) / 10 * 40 + 0 * 50 + -40 / 10, (0 : ℚ) * 40 + 1 / 10 * 50 + -50 / 10) = (0, 0)
  norm_num

/-- C5 amended: the 6-parameter matrix built by `_get_proj_and_affine` maps
UTM meters to pixel coordinates (not pixels to meters): both scale entries
are the positive constant 1/10 — the reciprocal of the hardcoded 10 m cell,
independent of the configured scale — and it sends the AOI's
minimum-x/minimum-y corner to the pixel origin, with
`(minx + 10u, miny + 10v) ↦ (u, v)`. -/
theorem proj_affine_meters_to_pixels (scale : ℚ) (bd : Bounds) :
    (get_proj_and_affine scale bd).GT.a = 1 / 10 ∧
    (get_proj_and_affine scale bd).GT.e = 1 / 10 ∧
    (0 : ℚ) < (get_proj_and_affine scale bd).GT.a ∧
    (0 : ℚ) < (get_proj_and_affine scale bd).GT.e ∧
    applyGT (get_proj_and_affine scale bd).GT (bd.minx, bd.miny) = (0, 0) ∧
    ∀ u v : ℚ, applyGT (get_proj_and_affine scale bd).GT
      (bd.minx + 10 * u, bd.miny + 10 * v) = (u, v) := by
  refine ⟨rfl, rfl, by norm_num [get_proj_and_affine], by norm_num [get_proj_and_affine],
    ?_, fun u v => ?_⟩
  · unfold applyGT get_proj_and_affine
    refine Prod.ext ?_ ?_ <;> simp <;> ring
  · unfold applyGT get_proj_and_affine
    refine Prod.ext ?_ ?_ <;> simp <;> ring

/-- C6 counterexample: with zero candidate scenes the build does NOT fail —
it completes and produces an output, even with a fetch service that would
reject every call. -/
theorem empty_ids_completes :
    ((mosaicRun (fun _ => .error "no fetch") [] (fun _ _ => 0) 10 256 3
        ⟨0, 0, 20, 20⟩).result).isOk = true := by decide

/-- C6 amended: when the candidate scene list is empty the build does not
fail with any error: the multi-scene branch is taken, no fetch call is
issued, every pixel stays at the nodata sentinel −1 (`initBuffer`), and the
output artifact is still written. -/
theorem empty_ids_writes_nodata_output (fetch : FetchCall → Except String (Pos → ℚ))
    (mask : Nat → Pos → ℤ) (scale : ℚ) (P nB : Nat) (bd : Bounds) :
    (mosaicRun fetch [] mask scale P nB bd).strategy = none ∧
    (mosaicRun fetch [] mask scale P nB bd).attempts = [] ∧
    (mosaicRun fetch [] mask scale P nB bd).result = .ok
      { Dy := (get_proj_and_affine scale bd).Dy.toNat,
        Dx := (get_proj_and_affine scale bd).Dx.toNat,
        buffer := initBuffer,
        artifact := write_rio (get_proj_and_affine scale bd).Dy.toNat
          (get_proj_and_affine scale bd).Dx.toNat nB bd } :=
  ⟨rfl, rfl, rfl⟩

lemma fillFraction_dx_zero (Dy : Nat) (m : Pos → ℤ) : fillFraction Dy 0 m = 0 := by
  simp [fillFraction]

lemma gridList_dx_zero (Dy : Nat) : gridList Dy 0 = [] := by
  simp [gridList]

/-- The fast-path guard never fires when no fill fraction exceeds 0.95. -/
lemma mosaicStrategy_eq_none (fills : List ℚ) (h : ∀ f ∈ fills, ¬((95 : ℚ) / 100 < f)) :
    mosaicStrategy fills = none := by
  unfold mosaicStrategy
  rw [List.min?_eq_none_iff]
  unfold exceedIndices
  rw [List.filter_eq_nil_iff]
  intro i hi
  simp only [decide_eq_true_eq]
  have h' := List.mem_range.mp hi
  rw [List.getD_eq_getElem _ _ h']
  exact h _ (List.getElem_mem h')

/-- The expression `np.where(fills > 0.95)[0].min()` is the least index whose fill exceeds
0.95. -/
lemma mosaicStrategy_eq_some (fills : List ℚ) (k : Nat) (hk : k < fills.length)
    (hgt : (95 : ℚ) / 100 < fills.getD k 0)
    (hmin : ∀ j < k, ¬((95 : ℚ) / 100 < fills.getD j 0)) :
    mosaicStrategy fills = some k := by
  unfold mosaicStrategy
  rw [List.min?_eq_some_iff']
  constructor
  · unfold exceedIndices
    rw [List.mem_filter]
    exact ⟨List.mem_range.mpr hk, decide_eq_true hgt⟩
  · intro b hb
    unfold exceedIndices at hb
    rw [List.mem_filter] at hb
    by_contra hcon
    exact hmin b (Nat.lt_of_not_le fun hle => hcon hle) (of_decide_eq_true hb.2)

/-- With a zero-width grid the core takes the multi-scene branch, issues no
fetch call, and its compositing result is the untouched all-nodata buffer. -/
lemma mosaicCore_dx_zero (fetch : FetchCall → Except String (Pos → ℚ))
    (ids : List String) (mask : Nat → Pos → ℤ) (Dy : Nat) (scale : ℚ)
    (P nB : Nat) (bd : Bounds) :
    (mosaicCore fetch ids mask 0 Dy scale P nB bd).strategy = none ∧
    (mosaicCore fetch ids mask 0 Dy scale P nB bd).attempts = [] ∧
    (mosaicCore fetch ids mask 0 Dy scale P nB bd).result =
      .ok { Dy := Dy, Dx := 0, buffer := initBuffer,
            artifact := write_rio Dy 0 nB bd } := by
  have hstrat : mosaicStrategy
      ((List.range ids.length).map fun i => fillFraction Dy 0 (mask i)) = none := by
    apply mosaicStrategy_eq_none
    intro f hf
    rw [List.mem_map] at hf
    obtain ⟨i, _, rfl⟩ := hf
    rw [fillFraction_dx_zero]
    norm_num
  have hcalls : fillMosaicCalls bd scale P 0 Dy (alphaLayer mask) ids = [] := by
    unfold fillMosaicCalls fillMosaicScene run_idx_scene
    rw [gridList_dx_zero]
    simp
  unfold mosaicCore
  simp only [hstrat, hcalls]
  exact ⟨trivial, rfl, rfl⟩

/-- C9 counterexample: at a degenerate AOI (zero width after reprojection:
`maxx = minx`, so `Dx = 0`) no `InvalidAOI` is raised — `_get_proj_and_affine`
returns `Dx = 0` without error, the compositing stages all run (multi-scene
branch, zero fetch calls), and the build only fails at the very end, when the
writer rejects the zero-sized buffer: the surfaced error is the writer's, not
a degeneracy check on the AOI. -/
theorem degenerate_aoi_writer_error :
    (get_proj_and_affine 10 ⟨5, 5, 5, 80⟩).Dx = 0 ∧
    (mosaicRunFinal (fun _ => .error "network down") ["scene_a"] (fun _ _ => 1)
        10 256 3 ⟨5, 5, 5, 80⟩).strategy = none ∧
    (mosaicRunFinal (fun _ => .error "network down") ["scene_a"] (fun _ _ => 1)
        10 256 3 ⟨5, 5, 5, 80⟩).attempts = [] ∧
    (mosaicRunFinal (fun _ => .error "network down") ["scene_a"] (fun _ _ => 1)
        10 256 3 ⟨5, 5, 5, 80⟩).result =
      .error "zero-sized raster rejected by writer" := by
  have hDx : (get_proj_and_affine 10 ⟨5, 5, 5, 80⟩).Dx = 0 := by
    show (⌊((5 : ℚ) - 5) / 10⌋ : ℤ) = 0
    norm_num
  have hcore := mosaicCore_dx_zero (fun _ => .error "network down") ["scene_a"]
    (fun _ _ => 1) (get_proj_and_affine 10 ⟨5, 5, 5, 80⟩).Dy.toNat 10 256 3 ⟨5, 5, 5, 80⟩
  refine ⟨hDx, ?_, ?_, ?_⟩ <;> unfold mosaicRunFinal mosaicRun <;> rw [hDx] <;>
    simp only [Int.toNat_zero]
  · exact hcore.1
  · exact hcore.2.1
  · rw [hcore.2.2]
    simp [finishBuild]

/-- C9 amended: the degenerate AOI is never detected as such — the projection
resolver performs no degeneracy check and no `InvalidAOI` error exists: with
zero width (`maxx = minx`) it returns `Dx = 0` without failing, the
compositing stages then all run (multi-scene branch over an empty grid, no
fetch call issued), and the build fails only at the writer step, which
rejects the zero-sized buffer — a fatal write failure carrying the writer's
error, not an `InvalidAOI`, and no output artifact is produced. -/
theorem degenerate_aoi_not_detected (fetch : FetchCall → Except String (Pos → ℚ))
    (ids : List String) (mask : Nat → Pos → ℤ) (scale : ℚ) (P nB : Nat)
    (bd : Bounds) (hdeg : bd.maxx = bd.minx) :
    (get_proj_and_affine scale bd).Dx = 0 ∧
    (mosaicRunFinal fetch ids mask scale P nB bd).strategy = none ∧
    (mosaicRunFinal fetch ids mask scale P nB bd).attempts = [] ∧
    (mosaicRunFinal fetch ids mask scale P nB bd).result =
      .error "zero-sized raster rejected by writer" := by
  have hDx : (get_proj_and_affine scale bd).Dx = 0 := by
    show (⌊(bd.maxx - bd.minx) / scale⌋ : ℤ) = 0
    rw [hdeg, sub_self, zero_div, Int.floor_zero]
  have hcore := mosaicCore_dx_zero fetch ids mask
    (get_proj_and_affine scale bd).Dy.toNat scale P nB bd
  refine ⟨hDx, ?_, ?_, ?_⟩ <;> unfold mosaicRunFinal mosaicRun <;> rw [hDx] <;>
    simp only [Int.toNat_zero]
  · exact hcore.1
  · exact hcore.2.1
  · rw [hcore.2.2]
    simp [finishBuild]

/-- Witness for C9's amended theorem at a concrete degenerate AOI. -/
theorem degenerate_aoi_not_detected_witness :
    (get_proj_and_affine 10 ⟨7, 2, 7, 50⟩).Dx = 0 ∧
    (mosaicRunFinal (fun _ => .ok fun _ => 3) ["a", "b"] (fun _ _ => 1)
        10 256 3 ⟨7, 2, 7, 50⟩).strategy = none ∧
    (mosaicRunFinal (fun _ => .ok fun _ => 3) ["a", "b"] (fun _ _ => 1)
        10 256 3 ⟨7, 2, 7, 50⟩).attempts = [] ∧
    (mosaicRunFinal (fun _ => .ok fun _ => 3) ["a", "b"] (fun _ _ => 1)
        10 256 3 ⟨7, 2, 7, 50⟩).result =
      .error "zero-sized raster rejected by writer" :=
  degenerate_aoi_not_detected _ _ _ _ _ _ _ rfl

lemma except_map_ok {α β ε : Type} (f : α → β) (r : Except ε α) (out : β)
    (h : r.map f = .ok out) : ∃ v, r = .ok v ∧ out = f v := by
  cases r with
  | error e => exact absurd h (by simp [Except.map])
  | ok v => exact ⟨v, rfl, by simpa [Except.map] using h.symm⟩

/-- On any successful build, the artifact is `write_rio Dy Dx nB bd` and the
output records the grid dimensions. -/
lemma mosaicCore_ok_shape (fetch : FetchCall → Except String (Pos → ℚ))
    (ids : List String) (mask : Nat → Pos → ℤ) (Dx Dy : Nat) (scale : ℚ)
    (P nB : Nat) (bd : Bounds) (out : MosaicOut)
    (h : (mosaicCore fetch ids mask Dx Dy scale P nB bd).result = .ok out) :
    out.Dy = Dy ∧ out.Dx = Dx ∧ out.artifact = write_rio Dy Dx nB bd := by
  unfold mosaicCore at h
  rcases hs : mosaicStrategy
      ((List.range ids.length).map fun i => fillFraction Dy Dx (mask i)) with _ | k <;>
    simp only [hs] at h
  · obtain ⟨v, _, rfl⟩ := except_map_ok _ _ _ h
    exact ⟨rfl, rfl, rfl⟩
  · obtain ⟨v, _, rfl⟩ := except_map_ok _ _ _ h
    exact ⟨rfl, rfl, rfl⟩

/-- C10: `_write_rio` declares the output raster's width from
`im_arr.shape[0]` — the ROW count `Dy` of the `Dy×Dx` buffer — and its height
from `shape[1]` — the COLUMN count `Dx` — so on every non-square grid the
declared width/height are transposed relative to the pixel grid; every
successful build's artifact carries exactly these swapped dimensions. -/
theorem write_rio_width_height_transposed (fetch : FetchCall → Except String (Pos → ℚ))
    (ids : List String) (mask : Nat → Pos → ℤ) (Dx Dy : Nat) (scale : ℚ)
    (P nB : Nat) (bd : Bounds) :
    ((write_rio Dy Dx nB bd).width = Dy ∧ (write_rio Dy Dx nB bd).height = Dx) ∧
    (Dy ≠ Dx → (write_rio Dy Dx nB bd).width ≠ Dx ∧ (write_rio Dy Dx nB bd).height ≠ Dy) ∧
    (∀ out, (mosaicCore fetch ids mask Dx Dy scale P nB bd).result = .ok out →
      out.artifact.width = out.Dy ∧ out.artifact.height = out.Dx) := by
  refine ⟨⟨rfl, rfl⟩, fun h => ⟨h, fun h2 => h h2.symm⟩, fun out hout => ?_⟩
  obtain ⟨hDy, hDx, hart⟩ := mosaicCore_ok_shape fetch ids mask Dx Dy scale P nB bd out hout
  rw [hart, hDy, hDx]
  exact ⟨rfl, rfl⟩

/-- Witness for C10 on a concrete non-square 2×3 grid. -/
theorem write_rio_width_height_transposed_witness :
    (((write_rio 2 3 4 ⟨0, 0, 30, 20⟩).width = 2 ∧ (write_rio 2 3 4 ⟨0, 0, 30, 20⟩).height = 3) ∧
    (2 ≠ 3 → (write_rio 2 3 4 ⟨0, 0, 30, 20⟩).width ≠ 3 ∧ (write_rio 2 3 4 ⟨0, 0, 30, 20⟩).height ≠ 2) ∧
    (∀ out, (mosaicCore (fun _ => .ok fun _ => 7) ["a"] (fun _ _ => 1) 3 2 10 256 4
        ⟨0, 0, 30, 20⟩).result = .ok out →
      out.artifact.width = out.Dy ∧ out.artifact.height = out.Dx)) :=
  write_rio_width_height_transposed (fun _ => .ok fun _ => 7) ["a"] (fun _ _ => 1)
    3 2 10 256 4 ⟨0, 0, 30, 20⟩

/-- C7: every fetch call issued — on the single-scene fast path
(`_fill_single_id`, lines 255-256) and on the multi-scene path
(`_fill_mosaic`, lines 298-299) alike — carries the ground-space offsets
`x_off = aoi_min_x + patch_x*P*scale` and `y_off = aoi_max_y − patch_y*P*scale`:
the fetch origin is the patch's top-left corner in north-up orientation. -/
theorem fetch_offsets_topleft (bd : Bounds) (scale : ℚ) (P Dx Dy k : Nat)
    (scene : String) (alpha : Nat → Pos → ℤ) (ids : List String) (c : FetchCall)
    (hc : c ∈ fillSingleCalls bd scale P Dx Dy k scene ++
          fillMosaicCalls bd scale P Dx Dy alpha ids) :
    c.x_off = bd.minx + (c.px : ℚ) * (P : ℚ) * scale ∧
    c.y_off = bd.maxy - (c.py : ℚ) * (P : ℚ) * scale := by
  rw [List.mem_append] at hc
  rcases hc with hc | hc
  · unfold fillSingleCalls at hc
    rw [List.mem_flatMap] at hc
    obtain ⟨ix, _, hc⟩ := hc
    rw [List.mem_map] at hc
    obtain ⟨iy, _, rfl⟩ := hc
    exact ⟨rfl, rfl⟩
  · unfold fillMosaicCalls at hc
    rw [List.mem_flatMap] at hc
    obtain ⟨i, _, hc⟩ := hc
    unfold fillMosaicScene at hc
    rw [List.mem_map] at hc
    obtain ⟨q, _, rfl⟩ := hc
    exact ⟨rfl, rfl⟩

/-- The single patch call of a 1×1 pixel grid with patch size 2 over the AOI
with bounds (0, 0, 20, 20), as built by `fillSingleCalls`. -/
def sampleCall : FetchCall :=
  { idx := 0, scene := "a", px := 0, py := 0,
    x_off := (Bounds.mk 0 0 20 20).minx + ((0 : Nat) : ℚ) * ((2 : Nat) : ℚ) * 10,
    y_off := (Bounds.mk 0 0 20 20).maxy - ((0 : Nat) : ℚ) * ((2 : Nat) : ℚ) * 10 }

/-- Witness for C7 at the concrete call `sampleCall`. -/
theorem fetch_offsets_topleft_witness :
    sampleCall ∈ fillSingleCalls ⟨0, 0, 20, 20⟩ 10 2 1 1 0 "a" ++
      fillMosaicCalls ⟨0, 0, 20, 20⟩ 10 2 1 1 (fun _ _ => 0) [] ∧
    (sampleCall.x_off = (Bounds.mk 0 0 20 20).minx +
        (sampleCall.px : ℚ) * ((2 : Nat) : ℚ) * 10 ∧
     sampleCall.y_off = (Bounds.mk 0 0 20 20).maxy -
        (sampleCall.py : ℚ) * ((2 : Nat) : ℚ) * 10) := by
  have hm : sampleCall ∈ fillSingleCalls ⟨0, 0, 20, 20⟩ 10 2 1 1 0 "a" ++
      fillMosaicCalls ⟨0, 0, 20, 20⟩ 10 2 1 1 (fun _ _ => 0) [] := by
    rw [show fillSingleCalls ⟨0, 0, 20, 20⟩ 10 2 1 1 0 "a" = [sampleCall] from rfl]
    exact List.mem_append_left _ (List.mem_singleton_self _)
  exact ⟨hm, fetch_offsets_topleft ⟨0, 0, 20, 20⟩ 10 2 1 1 0 "a" (fun _ _ => 0) []
    sampleCall hm⟩

/-- C2: if scene `k` is the lowest-index scene whose fill fraction strictly
exceeds 0.95, the build takes the single-scene fast path with scene `k`
(`np.where(fills > 0.95)[0].min()`) — not any later scene with a higher fill
fraction — and the run is exactly the single-scene fetch-and-composite over
the full patch grid: the alpha-mask partition is skipped entirely. -/
theorem fast_path_first_exceeding (fetch : FetchCall → Except String (Pos → ℚ))
    (ids : List String) (mask : Nat → Pos → ℤ) (Dx Dy : Nat) (scale : ℚ)
    (P nB : Nat) (bd : Bounds) (k : Nat) (hk : k < ids.length)
    (hgt : (95 : ℚ) / 100 < fillFraction Dy Dx (mask k))
    (hmin : ∀ j < k, ¬((95 : ℚ) / 100 < fillFraction Dy Dx (mask j))) :
    (mosaicCore fetch ids mask Dx Dy scale P nB bd).strategy = some k ∧
    (mosaicCore fetch ids mask Dx Dy scale P nB bd).attempts =
      (runCalls fetch (writeSingle P Dx Dy)
        (fillSingleCalls bd scale P Dx Dy k (ids.getD k "")) initBuffer).1 ∧
    (mosaicCore fetch ids mask Dx Dy scale P nB bd).result =
      (runCalls fetch (writeSingle P Dx Dy)
        (fillSingleCalls bd scale P Dx Dy k (ids.getD k "")) initBuffer).2.map
        fun buf => { Dy := Dy, Dx := Dx, buffer := buf,
                     artifact := write_rio Dy Dx nB bd } := by
  have hgetD : ∀ j, j < ids.length →
      ((List.range ids.length).map fun i => fillFraction Dy Dx (mask i)).getD j 0 =
        fillFraction Dy Dx (mask j) := by
    intro j hj
    rw [List.getD_eq_getElem _ _ (by simpa using hj)]
    simp
  have hstrat : mosaicStrategy
      ((List.range ids.length).map fun i => fillFraction Dy Dx (mask i)) = some k := by
    apply mosaicStrategy_eq_some
    · simpa using hk
    · rw [hgetD k hk]; exact hgt
    · intro j hj
      rw [hgetD j (hj.trans hk)]
      exact hmin j hj
  unfold mosaicCore
  simp only [hstrat]
  exact ⟨trivial, trivial, trivial⟩

/-- Witness for C2: two scenes where only the second fills the 1×1 grid. -/
theorem fast_path_first_exceeding_witness :
    (mosaicCore (fun _ => .ok fun _ => 5) ["a", "b"]
        (fun j _ => if j = 1 then 1 else 0) 1 1 10 2 3 ⟨0, 0, 10, 10⟩).strategy = some 1 ∧
    (mosaicCore (fun _ => .ok fun _ => 5) ["a", "b"]
        (fun j _ => if j = 1 then 1 else 0) 1 1 10 2 3 ⟨0, 0, 10, 10⟩).attempts =
      (runCalls (fun _ => .ok fun _ => 5) (writeSingle 2 1 1)
        (fillSingleCalls ⟨0, 0, 10, 10⟩ 10 2 1 1 1 (["a", "b"].getD 1 "")) initBuffer).1 ∧
    (mosaicCore (fun _ => .ok fun _ => 5) ["a", "b"]
        (fun j _ => if j = 1 then 1 else 0) 1 1 10 2 3 ⟨0, 0, 10, 10⟩).result =
      (runCalls (fun _ => .ok fun _ => 5) (writeSingle 2 1 1)
        (fillSingleCalls ⟨0, 0, 10, 10⟩ 10 2 1 1 1 (["a", "b"].getD 1 "")) initBuffer).2.map
        fun buf => { Dy := 1, Dx := 1, buffer := buf,
                     artifact := write_rio 1 1 3 ⟨0, 0, 10, 10⟩ } := by
  have h1 : fillFraction 1 1 ((fun (j : Nat) (_ : Pos) => if j = 1 then (1 : ℤ) else 0) 1) = 1 := by
    show fillFraction 1 1 (fun _ => if (1 : Nat) = 1 then (1 : ℤ) else 0) = 1
    unfold fillFraction pixelGrid
    simp
  have h0 : fillFraction 1 1 ((fun (j : Nat) (_ : Pos) => if j = 1 then (1 : ℤ) else 0) 0) = 0 := by
    show fillFraction 1 1 (fun _ => if (0 : Nat) = 1 then (1 : ℤ) else 0) = 0
    unfold fillFraction pixelGrid
    simp
  exact fast_path_first_exceeding (fun _ => .ok fun _ => 5) ["a", "b"]
    (fun j _ => if j = 1 then 1 else 0) 1 1 10 2 3 ⟨0, 0, 10, 10⟩ 1
    (by norm_num)
    (by rw [h1]; norm_num)
    (by intro j hj
        interval_cases j
        rw [h0]
        norm_num)

/-- Evaluation of the slice-assignment fold: after processing `range n`, a
column `x` holds `x / P` if some processed slice covered it and the initial
value otherwise. -/
lemma indexer_foldl_eval (P n : Nat) (f0 : Nat → Nat) (x : Nat) :
    ((List.range n).foldl (indexerStep P) f0) x = if x < n * P then x / P else f0 x := by
  induction n generalizing f0 with
  | zero => simp
  | succ m ih =>
      rw [List.range_succ, List.foldl_append, List.foldl_cons, List.foldl_nil]
      simp only [indexerStep]
      rw [ih]
      have hmp : (m + 1) * P = m * P + P := by ring
      by_cases h1 : m * P ≤ x ∧ x < (m + 1) * P
      · rw [if_pos h1, if_pos h1.2]
        exact (Nat.div_eq_of_lt_le h1.1 h1.2).symm
      · rw [if_neg h1]
        by_cases h2 : x < m * P
        · rw [if_pos h2, if_pos (by omega)]
        · rw [if_neg h2, if_neg (by omega)]

/-- For any in-grid column, the pixel indexer of `_make_pixel_indexer` equals
floor division by the patch size. -/
lemma pixel_indexer_eq_div (P D x : Nat) (hP : 0 < P) (hx : x < D) :
    pixel_indexer P D x = x / P := by
  unfold pixel_indexer
  rw [indexer_foldl_eval, if_pos]
  have h1 : (D / P + 1) * P = P * (D / P) + P := by ring
  have h2 := Nat.div_add_mod D P
  have h3 := Nat.mod_lt D hP
  omega

lemma mem_gridList (Dy Dx : Nat) (p : Pos) :
    p ∈ gridList Dy Dx ↔ p.1 < Dy ∧ p.2 < Dx := by
  unfold gridList
  rw [List.mem_flatMap]
  constructor
  · rintro ⟨y, hy, hp⟩
    rw [List.mem_map] at hp
    obtain ⟨x, hx, rfl⟩ := hp
    exact ⟨List.mem_range.mp hy, List.mem_range.mp hx⟩
  · rintro ⟨h1, h2⟩
    exact ⟨p.1, List.mem_range.mpr h1,
      List.mem_map.mpr ⟨p.2, List.mem_range.mpr h2, by simp⟩⟩

/-- C4: in the multi-scene path, scene `i`'s fetch calls are exactly the
distinct patch coordinates `(x/P, y/P)` that contain at least one pixel owned
by that scene's alpha layer: membership is characterized by owned pixels, the
patch list carries no duplicate `(patch_x, patch_y)` pair, and the number of
calls equals the deduplicated owned-patch count — never the pixel count. -/
theorem mosaic_calls_dedup (alpha : Nat → Pos → ℤ) (P Dx Dy i : Nat)
    (bd : Bounds) (scale : ℚ) (scene : String) (hP : 0 < P) :
    (∀ q : Nat × Nat, q ∈ run_idx_scene alpha P Dx Dy i ↔
      ∃ p : Pos, p.1 < Dy ∧ p.2 < Dx ∧ 0 < alpha i p ∧ q = (p.2 / P, p.1 / P)) ∧
    ((fillMosaicScene bd scale P Dx Dy alpha i scene).map fun c => (c.px, c.py)).Nodup ∧
    (fillMosaicScene bd scale P Dx Dy alpha i scene).length =
      (run_idx_scene alpha P Dx Dy i).length := by
  have hmapkey : ((fillMosaicScene bd scale P Dx Dy alpha i scene).map
      fun c => (c.px, c.py)) = run_idx_scene alpha P Dx Dy i := by
    unfold fillMosaicScene
    rw [List.map_map]
    exact (List.map_congr_left fun q _ => rfl).trans (List.map_id _)
  refine ⟨fun q => ?_, ?_, ?_⟩
  · unfold run_idx_scene
    rw [List.mem_dedup, List.mem_map]
    constructor
    · rintro ⟨p, hp, rfl⟩
      rw [List.mem_filter] at hp
      obtain ⟨hpg, hpa⟩ := hp
      rw [mem_gridList] at hpg
      refine ⟨p, hpg.1, hpg.2, of_decide_eq_true hpa, ?_⟩
      rw [pixel_indexer_eq_div P Dx p.2 hP hpg.2, pixel_indexer_eq_div P Dy p.1 hP hpg.1]
    · rintro ⟨p, h1, h2, h3, rfl⟩
      refine ⟨p, ?_, ?_⟩
      · rw [List.mem_filter, mem_gridList]
        exact ⟨⟨h1, h2⟩, decide_eq_true h3⟩
      · rw [pixel_indexer_eq_div P Dx p.2 hP h2, pixel_indexer_eq_div P Dy p.1 hP h1]
  · rw [hmapkey]
    exact List.nodup_dedup _
  · unfold fillMosaicScene
    exact List.length_map _ _

/-- Witness for C4 on a 1×1 grid with patch size 1. -/
theorem mosaic_calls_dedup_witness :
    (0 < 1) ∧
    ((∀ q : Nat × Nat, q ∈ run_idx_scene (fun _ _ => 1) 1 1 1 0 ↔
      ∃ p : Pos, p.1 < 1 ∧ p.2 < 1 ∧ 0 < (fun (_ : Nat) (_ : Pos) => (1 : ℤ)) 0 p ∧
        q = (p.2 / 1, p.1 / 1)) ∧
    ((fillMosaicScene ⟨0, 0, 10, 10⟩ 10 1 1 1 (fun _ _ => 1) 0 "a").map
        fun c => (c.px, c.py)).Nodup ∧
    (fillMosaicScene ⟨0, 0, 10, 10⟩ 10 1 1 1 (fun _ _ => 1) 0 "a").length =
      (run_idx_scene (fun _ _ => 1) 1 1 1 0).length) :=
  ⟨Nat.one_pos,
    mosaic_calls_dedup (fun _ _ => 1) 1 1 1 0 ⟨0, 0, 10, 10⟩ 10 "a" Nat.one_pos⟩

lemma runCalls_attempts_sublist (fetch : FetchCall → Except String (Pos → ℚ))
    (write : FetchCall → (Pos → ℚ) → (Pos → ℚ) → Pos → ℚ)
    (calls : List FetchCall) (buf : Pos → ℚ) :
    (runCalls fetch write calls buf).1.Sublist calls := by
  induction calls generalizing buf with
  | nil => exact List.Sublist.refl _
  | cons c rest ih =>
      unfold runCalls
      cases hf : fetch c with
      | error e => simp only [hf]; exact (List.nil_sublist rest).cons₂ c
      | ok arr => simp only [hf]; exact (ih (write c arr buf)).cons₂ c

lemma runCalls_error_mem (fetch : FetchCall → Except String (Pos → ℚ))
    (write : FetchCall → (Pos → ℚ) → (Pos → ℚ) → Pos → ℚ)
    (calls : List FetchCall) (buf : Pos → ℚ) (e : String)
    (h : (runCalls fetch write calls buf).2 = .error e) :
    ∃ c ∈ (runCalls fetch write calls buf).1, fetch c = .error e := by
  induction calls generalizing buf with
  | nil => exact absurd h (by simp [runCalls])
  | cons c rest ih =>
      rcases hf : fetch c with e' | arr
      · have hrun : runCalls fetch write (c :: rest) buf = ([c], .error e') := by
          conv_lhs => unfold runCalls
          rw [hf]
        rw [hrun] at h ⊢
        have he : e' = e := Except.error.inj h
        exact ⟨c, List.mem_singleton_self c, by rw [hf, he]⟩
      · have hrun : runCalls fetch write (c :: rest) buf =
            (c :: (runCalls fetch write rest (write c arr buf)).1,
             (runCalls fetch write rest (write c arr buf)).2) := by
          conv_lhs => unfold runCalls
          rw [hf]
        rw [hrun] at h ⊢
        obtain ⟨c', hc1, hc2⟩ := ih (write c arr buf) h
        exact ⟨c', List.mem_cons_of_mem c hc1, hc2⟩

lemma except_map_error {α β ε : Type} (f : α → β) (r : Except ε α) (e : ε) :
    r.map f = .error e ↔ r = .error e := by
  cases r <;> simp [Except.map]

/-- The (scene, patch) keys of the single-scene call list are distinct. -/
lemma fillSingleCalls_keys_nodup (bd : Bounds) (scale : ℚ) (P Dx Dy k : Nat)
    (scene : String) :
    ((fillSingleCalls bd scale P Dx Dy k scene).map
      fun c => (c.scene, c.px, c.py)).Nodup := by
  unfold fillSingleCalls
  rw [List.map_flatMap, List.nodup_flatMap]
  constructor
  · intro ix _
    rw [List.map_map]
    refine List.Nodup.map ?_ (List.nodup_range _)
    intro a b hab
    simpa using congrArg (fun t => t.2.2) hab
  · refine List.Pairwise.imp ?_ (List.pairwise_lt_range _)
    intro ix1 ix2 hlt t ht1 ht2
    simp only [List.map_map, List.mem_map, Function.comp] at ht1 ht2
    obtain ⟨iy1, _, rfl⟩ := ht1
    obtain ⟨iy2, _, h2⟩ := ht2
    have := congrArg (fun t => t.2.1) h2
    simp only at this
    omega

/-- The (scene, patch) keys of the multi-scene call list are distinct when the
candidate ids are distinct. -/
lemma fillMosaicCalls_keys_nodup (bd : Bounds) (scale : ℚ) (P Dx Dy : Nat)
    (alpha : Nat → Pos → ℤ) (ids : List String) (hids : ids.Nodup) :
    ((fillMosaicCalls bd scale P Dx Dy alpha ids).map
      fun c => (c.scene, c.px, c.py)).Nodup := by
  unfold fillMosaicCalls
  rw [List.map_flatMap, List.nodup_flatMap]
  constructor
  · intro i _
    unfold fillMosaicScene
    rw [List.map_map]
    refine List.Nodup.map ?_ (List.nodup_dedup _)
    intro a b hab
    have h1 := congrArg (fun t => t.2.1) hab
    have h2 := congrArg (fun t => t.2.2) hab
    simp only at h1 h2
    exact Prod.ext h1 h2
  · rw [List.pairwise_iff_getElem]
    intro a b ha hb hab
    rw [List.length_range] at ha hb
    rw [List.getElem_range, List.getElem_range]
    intro t ht1 ht2
    simp only [fillMosaicScene, List.map_map, List.mem_map, Function.comp] at ht1 ht2
    obtain ⟨q1, _, rfl⟩ := ht1
    obtain ⟨q2, _, h2⟩ := ht2
    have hs := congrArg (fun t => t.1) h2
    simp only at hs
    rw [List.getD_eq_getElem _ _ hb, List.getD_eq_getElem _ _ ha] at hs
    exact absurd ((hids.getElem_inj_iff).mp hs) (by omega)

/-- C8 amended: there is no retry — `_get_GEE_arr` issues exactly one remote
call per (scene, patch) pair, so over a whole build (with distinct candidate
ids, as a catalog listing has) the attempted (scene, patch) keys never
repeat; a fetch error is never silently skipped: it aborts the run at that
call, and the error that surfaces is some attempted call's own transport
error propagated unchanged — no `FetchFailed` wrapper naming scene and patch
exists in the code. -/
theorem fetch_no_retry_error_propagates (fetch : FetchCall → Except String (Pos → ℚ))
    (ids : List String) (mask : Nat → Pos → ℤ) (Dx Dy : Nat) (scale : ℚ)
    (P nB : Nat) (bd : Bounds) (hids : ids.Nodup) :
    ((mosaicCore fetch ids mask Dx Dy scale P nB bd).attempts.map
        fun c => (c.scene, c.px, c.py)).Nodup ∧
    ∀ e, (mosaicCore fetch ids mask Dx Dy scale P nB bd).result = .error e →
      ∃ c ∈ (mosaicCore fetch ids mask Dx Dy scale P nB bd).attempts,
        fetch c = .error e := by
  unfold mosaicCore
  rcases hs : mosaicStrategy
      ((List.range ids.length).map fun i => fillFraction Dy Dx (mask i)) with _ | k <;>
    simp only [hs]
  · constructor
    · exact List.Nodup.sublist
        ((runCalls_attempts_sublist fetch (writeMosaic P Dx Dy (alphaLayer mask))
          (fillMosaicCalls bd scale P Dx Dy (alphaLayer mask) ids) initBuffer).map _)
        (fillMosaicCalls_keys_nodup bd scale P Dx Dy (alphaLayer mask) ids hids)
    · intro e he
      rw [except_map_error] at he
      exact runCalls_error_mem fetch _ _ _ e he
  · constructor
    · exact List.Nodup.sublist
        ((runCalls_attempts_sublist fetch (writeSingle P Dx Dy)
          (fillSingleCalls bd scale P Dx Dy k (ids.getD k "")) initBuffer).map _)
        (fillSingleCalls_keys_nodup bd scale P Dx Dy k (ids.getD k ""))
    · intro e he
      rw [except_map_error] at he
      exact runCalls_error_mem fetch _ _ _ e he

/-- Witness for C8's amended theorem with two distinct scenes. -/
theorem fetch_no_retry_error_propagates_witness :
    ((mosaicCore (fun _ => .ok fun _ => 2) ["a", "b"] (fun _ _ => 1) 4 4 10 2 3
        ⟨0, 0, 40, 40⟩).attempts.map fun c => (c.scene, c.px, c.py)).Nodup ∧
    ∀ e, (mosaicCore (fun _ => .ok fun _ => 2) ["a", "b"] (fun _ _ => 1) 4 4 10 2 3
        ⟨0, 0, 40, 40⟩).result = .error e →
      ∃ c ∈ (mosaicCore (fun _ => .ok fun _ => 2) ["a", "b"] (fun _ _ => 1) 4 4 10 2 3
        ⟨0, 0, 40, 40⟩).attempts, (fun (_ : FetchCall) =>
          (Except.ok fun _ => 2 : Except String (Pos → ℚ))) c = .error e :=
  fetch_no_retry_error_propagates (fun _ => .ok fun _ => 2) ["a", "b"] (fun _ _ => 1)
    4 4 10 2 3 ⟨0, 0, 40, 40⟩ (by simp)

/-- C8 counterexample: with a fetch service that always raises, a 1×1 build
attempts its single patch exactly once — it is NOT retried — and the error
that aborts the build is the raw transport error `"boom"`, not a
`FetchFailed` error naming the scene and the patch coordinate. -/
theorem fetch_error_no_retry_raw :
    (mosaicCore (fun _ => .error "boom") ["a"] (fun _ _ => 1) 1 1 10 2 3
        ⟨0, 0, 20, 20⟩).attempts.length = 1 ∧
    (mosaicCore (fun _ => .error "boom") ["a"] (fun _ _ => 1) 1 1 10 2 3
        ⟨0, 0, 20, 20⟩).result = .error "boom" := by
  have h1 : fillFraction 1 1 (fun _ => (1 : ℤ)) = 1 := by
    unfold fillFraction pixelGrid
    simp
  have hstrat : mosaicStrategy ((List.range (["a"] : List String).length).map
      fun i => fillFraction 1 1 ((fun (_ : Nat) (_ : Pos) => (1 : ℤ)) i)) = some 0 := by
    apply mosaicStrategy_eq_some
    · simp
    · show (95 : ℚ) / 100 < ((List.range (["a"] : List String).length).map
        fun i => fillFraction 1 1 ((fun (_ : Nat) (_ : Pos) => (1 : ℤ)) i)).getD 0 0
      rw [show ((List.range (["a"] : List String).length).map
        fun i => fillFraction 1 1 ((fun (_ : Nat) (_ : Pos) => (1 : ℤ)) i)).getD 0 0 =
        fillFraction 1 1 (fun _ => (1 : ℤ)) from rfl, h1]
      norm_num
    · intro j hj
      exact absurd hj (Nat.not_lt_zero j)
  unfold mosaicCore
  simp only [hstrat]
  exact ⟨rfl, rfl⟩
